import Mathlib

/-!
Verification of the address-selection and reconciliation core of the
`alicloud-ipv6-ddns` updater (`src/main.py`).

The Python source is shallowly embedded:

* `AliyunDDNS.get_interface_ipv6` (lines 65–107) becomes `get_interface_ipv6`
  over the list of IPv6 address strings enumerated for an interface
  (the `addr['addr']` fields of `netifaces.ifaddresses(interface)[AF_INET6]`);
  the early-return branches for a missing interface or an interface with no
  IPv6 addresses yield `none` and are not address-list dependent.
* `AliyunDDNS.get_domain_records` / `add_domain_record` /
  `update_domain_record` / `sync` (lines 109–178) become a trace semantics:
  the remote provider is an oracle (`Env`) and `sync` returns the list of
  remote calls issued during one reconciliation cycle.
* the driver loop of `main` (lines 261–266) becomes `driverRun` over the
  sequence of cycle outcomes.
-/

namespace AlicloudDDNS

/-- `addr['addr'].split('%')[0]` (line 79): the part of the address string
before the first `%`, i.e. the longest prefix free of `%`. -/
def stripZone (s : String) : String := ⟨s.data.takeWhile (fun c => c != '%')⟩

/-- Python `ip.startswith(p)`. -/
def strStartsWith (s p : String) : Bool := p.data.isPrefixOf s.data

/-- Python `':' in ip`. -/
def hasColon (ip : String) : Bool := ip.data.contains ':'

/-- The exclusion filter of lines 82–90: link-local, unique-local prefixes,
loopback, 6to4, legacy `3ffe:`, or no colon at all. -/
def excluded (ip : String) : Bool :=
  strStartsWith ip "fe80:" || strStartsWith ip "fc00:" || strStartsWith ip "fd00:" ||
  ip == "::1" || strStartsWith ip "2002:" || strStartsWith ip "3ffe:" || !hasColon ip

/-- Line 94: `ip.startswith('2') or ip.startswith('3')`. -/
def isPublic (ip : String) : Bool := strStartsWith ip "2" || strStartsWith ip "3"

/-- The loop of lines 77–95: strip the zone suffix of each enumerated address,
drop the excluded ones, and keep those starting with `2` or `3`, in
enumeration order (`ipv6_addrs`). -/
def candidateIPs : List String → List String
  | [] => []
  | addr :: rest =>
    if excluded (stripZone addr) then candidateIPs rest
    else if isPublic (stripZone addr) then stripZone addr :: candidateIPs rest
    else candidateIPs rest

/-- Stable insertion by string length: `x` goes in front of the first element
at least as long as it. -/
def insertByLen (x : String) : List String → List String
  | [] => [x]
  | y :: ys => if x.length ≤ y.length then x :: y :: ys else y :: insertByLen x ys

/-- Stable sort by string length; `ipv6_addrs.sort(key=len)` on line 99 is
Python's stable sort, whose result is the unique length-sorted permutation
preserving the relative order of equal-length elements, which insertion sort
with `insertByLen` computes. -/
def sortByLen : List String → List String
  | [] => []
  | x :: xs => insertByLen x (sortByLen xs)

/-- Lines 97–103: if the candidate list is non-empty, sort it by length and
return element `[0]`; otherwise return `None`. -/
def get_interface_ipv6 (addrs : List String) : Option String :=
  (sortByLen (candidateIPs addrs)).head?

/-- The first element of minimal length of a list (specification-side helper
used to describe the head of the stable sort). -/
def firstMin : List String → Option String
  | [] => none
  | x :: xs =>
    match firstMin xs with
    | none => some x
    | some m => if x.length ≤ m.length then some x else some m

/-! ## Record Reconciler (lines 109–178)

The Aliyun client is an oracle `Env`; `sync` produces the trace of remote
calls issued during one reconciliation cycle. -/

/-- One provider-side DNS record, with the fields `sync` reads
(`record['RecordId']`, `record['Value']`). -/
structure DnsRecord where
  RecordId : String
  Value : String
deriving DecidableEq, Repr

/-- One remote call issued by the reconciler, with the data the corresponding
Python method sends: `get_domain_records(domain, rr)`,
`add_domain_record(ip, domain, rr)`,
`update_domain_record(record_id, current_ip, domain, rr)`. -/
inductive RemoteCall where
  | lookup (domain rr : String)
  | create (ip domain rr : String)
  | update (record_id current_ip domain rr : String)
deriving DecidableEq, Repr

/-- The external world of one cycle: the resolver outcome per interface
(`get_interface_ipv6`), the provider's response to each
`DescribeDomainRecords` call (`.error ()` models a raised exception), and
the success of each add/update call (their `bool` results, which `sync`
ignores). -/
structure Env where
  resolve : String → Option String
  lookupResp : String → String → Except Unit (List DnsRecord)
  createOk : String → String → Bool
  updateOk : String → String → Bool

/-- Lines 109–123: on a successful response return `records[0] if records
else None`; a raised exception is caught and yields `None`. -/
def get_domain_records (resp : Except Unit (List DnsRecord)) : Option DnsRecord :=
  match resp with
  | .error _ => none
  | .ok records => records.head?

/-- Lines 168–178, body of the inner `for rr in self.rr_list` loop: look the
record up; if absent (or the lookup failed), create; if present with a
different value, update; otherwise no-op. The calls are recorded in order;
the `bool` results of add/update are ignored, as in the source. -/
def syncRR (env : Env) (current_ip domain rr : String) : List RemoteCall :=
  RemoteCall.lookup domain rr ::
    match get_domain_records (env.lookupResp domain rr) with
    | none => [RemoteCall.create current_ip domain rr]
    | some record =>
      if record.Value != current_ip then
        [RemoteCall.update record.RecordId current_ip domain rr]
      else []

/-- The inner loop over `self.rr_list`, in list order. -/
def syncRRs (env : Env) (current_ip domain : String) : List String → List RemoteCall
  | [] => []
  | rr :: rest => syncRR env current_ip domain rr ++ syncRRs env current_ip domain rest

/-- Lines 162–168 for one `(interface, domain)` item: resolve the interface;
`if not current_ip: continue` skips the whole subdomain list when the
resolver returned `None` (or the falsy empty string). -/
def bindingCalls (env : Env) (interface domain : String) (rr_list : List String) :
    List RemoteCall :=
  match env.resolve interface with
  | none => []
  | some current_ip =>
    if current_ip = "" then [] else syncRRs env current_ip domain rr_list

/-- Lines 159–178: one reconciliation cycle over
`self.interface_domain_map.items()` (a Python dict iterates in insertion
order, modelled as an association list). -/
def sync (env : Env) (interface_domain_map : List (String × String))
    (rr_list : List String) : List RemoteCall :=
  match interface_domain_map with
  | [] => []
  | (interface, domain) :: rest =>
    bindingCalls env interface domain rr_list ++ sync env rest rr_list

/-- The number of `create` calls in a trace. -/
def countCreates (t : List RemoteCall) : Nat :=
  (t.filter fun c => match c with | .create .. => true | _ => false).length

/-- The number of `update` calls in a trace. -/
def countUpdates (t : List RemoteCall) : Nat :=
  (t.filter fun c => match c with | .update .. => true | _ => false).length

/-- The `lookup` calls of a trace, in order: which (domain, subdomain) pairs
the cycle actually processed. -/
def lookupCalls (t : List RemoteCall) : List RemoteCall :=
  t.filter fun c => match c with | .lookup .. => true | _ => false

/-! ## Driver loop (lines 261–266)

`main` runs `while True: ddns.sync(); time.sleep(...)` inside a
`try: ... except KeyboardInterrupt:` — only `KeyboardInterrupt` is caught.
A cycle either completes normally or raises, and a raised fault is either a
`KeyboardInterrupt` (the external interrupt) or any other exception. -/

/-- Outcome of one cycle: completed, or raised (`interrupt` tells whether the
fault is a `KeyboardInterrupt`). -/
inductive CycleOutcome where
  | ok
  | raised (interrupt : Bool)
deriving DecidableEq, Repr

/-- How the loop ended: caught `KeyboardInterrupt` and stopped cleanly, or an
uncaught exception terminated the process. -/
inductive StopReason where
  | interrupted
  | crashed
deriving DecidableEq, Repr

/-- The driver loop of lines 261–266, run against a finite prefix of cycle
outcomes: an `ok` cycle is followed by the next one; a raised
`KeyboardInterrupt` is caught by the `except` clause and stops the loop
cleanly; any other raised fault is uncaught and terminates the process.
`none` means every listed cycle completed and the loop is still running. -/
def driverRun : List CycleOutcome → Option StopReason
  | [] => none
  | .ok :: rest => driverRun rest
  | .raised true :: _ => some .interrupted
  | .raised false :: _ => some .crashed

/-- The (domain, subdomain) pair a remote call belongs to. -/
def callKey : RemoteCall → String × String
  | .lookup d rr => (d, rr)
  | .create _ d rr => (d, rr)
  | .update _ _ d rr => (d, rr)

/-- The calls of a trace that do not belong to the subdomain `(d, rr)`. -/
def callsNotFor (d rr : String) (t : List RemoteCall) : List RemoteCall :=
  t.filter fun c => callKey c != (d, rr)

/-! Concrete environments used to evaluate the theorems on closed inputs. -/

/-- `eth0` resolves and every lookup answers with a record already holding
the resolved address. -/
def envUpToDate : Env :=
  ⟨fun i => if i = "eth0" then some "2001:db8::1" else none,
   fun _ _ => .ok [⟨"rid1", "2001:db8::1"⟩],
   fun _ _ => true, fun _ _ => true⟩

/-- Every lookup answers with a record holding a stale address. -/
def envStale : Env :=
  ⟨fun i => if i = "eth0" then some "2001:db8::1" else none,
   fun _ _ => .ok [⟨"rid1", "2001:db8::2"⟩],
   fun _ _ => true, fun _ _ => true⟩

/-- Every lookup answers with an empty record list. -/
def envAbsent : Env :=
  ⟨fun i => if i = "eth0" then some "2001:db8::1" else none,
   fun _ _ => .ok [],
   fun _ _ => true, fun _ _ => true⟩

/-- Every lookup raises. -/
def envErr : Env :=
  ⟨fun i => if i = "eth0" then some "2001:db8::1" else none,
   fun _ _ => .error (),
   fun _ _ => true, fun _ _ => true⟩

/-- `eth0` does not resolve; every other interface does. -/
def envNoResolve : Env :=
  ⟨fun i => if i = "eth0" then none else some "2001:db8::1",
   fun _ _ => .ok [⟨"rid1", "2001:db8::1"⟩],
   fun _ _ => true, fun _ _ => true⟩

/-- Like `envUpToDate`, but the lookup for `("example.com", "www")` raises
and every create/update call fails. -/
def envFaulty : Env :=
  ⟨fun i => if i = "eth0" then some "2001:db8::1" else none,
   fun d rr => if d = "example.com" ∧ rr = "www" then .error ()
     else .ok [⟨"rid1", "2001:db8::1"⟩],
   fun _ _ => false, fun _ _ => false⟩

/-! ## Resolver lemmas -/

theorem mem_insertByLen (a x : String) (l : List String) :
    a ∈ insertByLen x l ↔ a = x ∨ a ∈ l := by
  induction l with
  | nil => simp [insertByLen]
  | cons y ys ih =>
    simp only [insertByLen]
    split
    · simp
    · simp only [List.mem_cons, ih]
      tauto

theorem mem_sortByLen (a : String) (l : List String) : a ∈ sortByLen l ↔ a ∈ l := by
  induction l with
  | nil => simp [sortByLen]
  | cons x xs ih => simp [sortByLen, mem_insertByLen, ih]

theorem head_insertByLen (x y : String) (ys : List String) :
    (insertByLen x (y :: ys)).head? =
      if x.length ≤ y.length then some x else some y := by
  simp only [insertByLen]
  split <;> rfl

theorem head_sortByLen (l : List String) : (sortByLen l).head? = firstMin l := by
  induction l with
  | nil => rfl
  | cons x xs ih =>
    simp only [sortByLen, firstMin]
    cases h : sortByLen xs with
    | nil =>
      have hfm : firstMin xs = none := by rw [← ih, h]; rfl
      rw [hfm]
      rfl
    | cons y ys =>
      have hfm : firstMin xs = some y := by rw [← ih, h]; rfl
      rw [hfm, head_insertByLen]

theorem firstMin_eq_none (l : List String) : firstMin l = none ↔ l = [] := by
  cases l with
  | nil => simp [firstMin]
  | cons x xs =>
    simp only [firstMin]
    constructor
    · intro h
      exfalso
      split at h
      · exact Option.noConfusion h
      · split at h <;> exact Option.noConfusion h
    · intro h
      exact absurd h (List.cons_ne_nil x xs)

theorem firstMin_spec (l : List String) (r : String) (h : firstMin l = some r) :
    (∃ l₁ l₂, l = l₁ ++ r :: l₂ ∧ ∀ c ∈ l₁, r.length < c.length) ∧
    ∀ c ∈ l, r.length ≤ c.length := by
  induction l generalizing r with
  | nil => simp [firstMin] at h
  | cons x xs ih =>
    simp only [firstMin] at h
    split at h
    · next hfm =>
        injection h with h
        subst h
        have hxs : xs = [] := (firstMin_eq_none xs).mp hfm
        subst hxs
        exact ⟨⟨[], [], rfl, by simp⟩, by simp⟩
    · next m hfm =>
        by_cases hle : x.length ≤ m.length
        · rw [if_pos hle] at h
          injection h with h
          subst h
          obtain ⟨_, hmin⟩ := ih m hfm
          refine ⟨⟨[], xs, rfl, by simp⟩, ?_⟩
          intro c hc
          rcases List.mem_cons.mp hc with rfl | hc
          · exact le_refl _
          · exact le_trans hle (hmin c hc)
        · rw [if_neg hle] at h
          injection h with h
          subst h
          obtain ⟨⟨l₁, l₂, heq, hstrict⟩, hmin⟩ := ih m hfm
          refine ⟨⟨x :: l₁, l₂, by rw [heq]; rfl, ?_⟩, ?_⟩
          · intro c hc
            rcases List.mem_cons.mp hc with rfl | hc
            · exact not_le.mp hle
            · exact hstrict c hc
          · intro c hc
            rcases List.mem_cons.mp hc with rfl | hc
            · exact le_of_lt (not_le.mp hle)
            · exact hmin c hc

theorem mem_candidateIPs (ip : String) (addrs : List String)
    (h : ip ∈ candidateIPs addrs) :
    excluded ip = false ∧ isPublic ip = true ∧ ∃ a ∈ addrs, ip = stripZone a := by
  induction addrs with
  | nil => simp [candidateIPs] at h
  | cons addr rest ih =>
    simp only [candidateIPs] at h
    split at h
    · obtain ⟨h1, h2, a, ha, hip⟩ := ih h
      exact ⟨h1, h2, a, List.mem_cons_of_mem _ ha, hip⟩
    · next hexc =>
        split at h
        · next hpub =>
            rcases List.mem_cons.mp h with rfl | h
            · exact ⟨by simpa using hexc, hpub, addr, List.mem_cons_self _ _, rfl⟩
            · obtain ⟨h1, h2, a, ha, hip⟩ := ih h
              exact ⟨h1, h2, a, List.mem_cons_of_mem _ ha, hip⟩
        · obtain ⟨h1, h2, a, ha, hip⟩ := ih h
          exact ⟨h1, h2, a, List.mem_cons_of_mem _ ha, hip⟩

theorem stripZone_not_pct (s : String) : '%' ∉ (stripZone s).data := by
  intro hmem
  have hp := List.mem_takeWhile_imp hmem
  simp at hp

theorem mem_of_head?_eq (l : List String) (a : String) (h : l.head? = some a) :
    a ∈ l := by
  cases l with
  | nil => exact Option.noConfusion h
  | cons x xs =>
    injection h with h
    subst h
    exact List.mem_cons_self _ _

theorem mem_candidate_of_get (addrs : List String) (r : String)
    (h : get_interface_ipv6 addrs = some r) : r ∈ candidateIPs addrs := by
  unfold get_interface_ipv6 at h
  exact (mem_sortByLen r _).mp (mem_of_head?_eq _ r h)

/-! ## Claim theorems -/

/-- C1: whenever the filtered candidate list of an interface is non-empty,
`get_interface_ipv6` returns a candidate of minimal string length; among
equally-short candidates it returns the first one in enumeration order
(every earlier candidate is strictly longer); and the result is unique, so
repeated calls on identical input agree. -/
theorem resolver_returns_first_shortest_candidate (addrs : List String)
    (h : candidateIPs addrs ≠ []) :
    ∃ r, get_interface_ipv6 addrs = some r ∧
      r ∈ candidateIPs addrs ∧
      (∀ c ∈ candidateIPs addrs, r.length ≤ c.length) ∧
      (∃ l₁ l₂, candidateIPs addrs = l₁ ++ r :: l₂ ∧ ∀ c ∈ l₁, r.length < c.length) ∧
      ∀ r₂, get_interface_ipv6 addrs = some r₂ → r₂ = r := by
  obtain ⟨r, hr⟩ : ∃ r, firstMin (candidateIPs addrs) = some r := by
    cases hr : firstMin (candidateIPs addrs) with
    | none => exact absurd ((firstMin_eq_none _).mp hr) h
    | some r => exact ⟨r, rfl⟩
  obtain ⟨⟨l₁, l₂, heq, hstrict⟩, hmin⟩ := firstMin_spec _ r hr
  have hget : get_interface_ipv6 addrs = some r := by
    unfold get_interface_ipv6
    rw [head_sortByLen, hr]
  refine ⟨r, hget, ?_, hmin, ⟨l₁, l₂, heq, hstrict⟩, ?_⟩
  · rw [heq]
    exact List.mem_append_right _ (List.mem_cons_self _ _)
  · intro r₂ h₂
    rw [hget] at h₂
    injection h₂ with h₂
    exact h₂.symm

/-- C1 witness: the spec's worked example, with a zone suffix added. -/
theorem resolver_returns_first_shortest_candidate_witness :
    candidateIPs ["fe80::1", "2001:db8::abcd", "2001:db8::1%eth0"] ≠ [] ∧
    ∃ r, get_interface_ipv6 ["fe80::1", "2001:db8::abcd", "2001:db8::1%eth0"] = some r ∧
      r ∈ candidateIPs ["fe80::1", "2001:db8::abcd", "2001:db8::1%eth0"] ∧
      (∀ c ∈ candidateIPs ["fe80::1", "2001:db8::abcd", "2001:db8::1%eth0"],
        r.length ≤ c.length) ∧
      (∃ l₁ l₂, candidateIPs ["fe80::1", "2001:db8::abcd", "2001:db8::1%eth0"] =
        l₁ ++ r :: l₂ ∧ ∀ c ∈ l₁, r.length < c.length) ∧
      ∀ r₂, get_interface_ipv6 ["fe80::1", "2001:db8::abcd", "2001:db8::1%eth0"] =
        some r₂ → r₂ = r :=
  ⟨by decide, resolver_returns_first_shortest_candidate _ (by decide)⟩

/-- C2: a returned address never starts with `fe80:`, `fc00:`, `fd00:`,
`2002:` or `3ffe:`, is never `::1`, always contains a colon, and starts
with `2` or `3`. -/
theorem resolver_never_returns_excluded (addrs : List String) (r : String)
    (h : get_interface_ipv6 addrs = some r) :
    strStartsWith r "fe80:" = false ∧ strStartsWith r "fc00:" = false ∧
    strStartsWith r "fd00:" = false ∧ r ≠ "::1" ∧
    strStartsWith r "2002:" = false ∧ strStartsWith r "3ffe:" = false ∧
    hasColon r = true ∧ (strStartsWith r "2" = true ∨ strStartsWith r "3" = true) := by
  obtain ⟨hexc, hpub, _⟩ := mem_candidateIPs r addrs (mem_candidate_of_get addrs r h)
  simp only [excluded, Bool.or_eq_false_iff, Bool.not_eq_false',
    beq_eq_false_iff_ne] at hexc
  simp only [isPublic, Bool.or_eq_true] at hpub
  obtain ⟨⟨⟨⟨⟨⟨h1, h2⟩, h3⟩, h4⟩, h5⟩, h6⟩, h7⟩ := hexc
  exact ⟨h1, h2, h3, h4, h5, h6, h7, hpub⟩

/-- C2 witness. -/
theorem resolver_never_returns_excluded_witness :
    get_interface_ipv6 ["fe80::1", "2001:db8::1"] = some "2001:db8::1" ∧
    strStartsWith "2001:db8::1" "fe80:" = false ∧
    strStartsWith "2001:db8::1" "fc00:" = false ∧
    strStartsWith "2001:db8::1" "fd00:" = false ∧ "2001:db8::1" ≠ "::1" ∧
    strStartsWith "2001:db8::1" "2002:" = false ∧
    strStartsWith "2001:db8::1" "3ffe:" = false ∧
    hasColon "2001:db8::1" = true ∧
    (strStartsWith "2001:db8::1" "2" = true ∨ strStartsWith "2001:db8::1" "3" = true) :=
  ⟨by decide, resolver_never_returns_excluded ["fe80::1", "2001:db8::1"] _ (by decide)⟩

/-- C10: a returned address is exactly one of the enumerated address strings
with its zone-identifier suffix removed, and it contains no `%`. -/
theorem resolver_returns_stripped_enumerated (addrs : List String) (r : String)
    (h : get_interface_ipv6 addrs = some r) :
    (∃ a ∈ addrs, r = stripZone a) ∧ '%' ∉ r.data := by
  obtain ⟨_, _, a, ha, hr⟩ := mem_candidateIPs r addrs (mem_candidate_of_get addrs r h)
  subst hr
  exact ⟨⟨a, ha, rfl⟩, stripZone_not_pct a⟩

/-- C10 witness. -/
theorem resolver_returns_stripped_enumerated_witness :
    get_interface_ipv6 ["2001:db8::1%eth0"] = some "2001:db8::1" ∧
    (∃ a ∈ ["2001:db8::1%eth0"], "2001:db8::1" = stripZone a) ∧
    '%' ∉ "2001:db8::1".data :=
  ⟨by decide, resolver_returns_stripped_enumerated ["2001:db8::1%eth0"] _ (by decide)⟩

/-! ## Reconciler lemmas -/

theorem countCreates_append (a b : List RemoteCall) :
    countCreates (a ++ b) = countCreates a + countCreates b := by
  simp [countCreates, List.filter_append]

theorem countUpdates_append (a b : List RemoteCall) :
    countUpdates (a ++ b) = countUpdates a + countUpdates b := by
  simp [countUpdates, List.filter_append]

theorem lookupCalls_append (a b : List RemoteCall) :
    lookupCalls (a ++ b) = lookupCalls a ++ lookupCalls b := by
  simp [lookupCalls, List.filter_append]

theorem callsNotFor_append (d rr : String) (a b : List RemoteCall) :
    callsNotFor d rr (a ++ b) = callsNotFor d rr a ++ callsNotFor d rr b := by
  simp [callsNotFor, List.filter_append]

/-- The calls a subdomain's reconciliation step issues all belong to that
subdomain. -/
theorem callsNotFor_syncRR_self (env : Env) (ip d rr : String) :
    callsNotFor d rr (syncRR env ip d rr) = [] := by
  unfold syncRR
  cases get_domain_records (env.lookupResp d rr) with
  | none => simp [callsNotFor, callKey]
  | some rec => split <;> simp [callsNotFor, callKey]

/-- A subdomain's reconciliation step depends on the environment only
through the provider's answer to its own lookup. -/
theorem syncRR_congr (env1 env2 : Env) (ip d rr : String)
    (h : env1.lookupResp d rr = env2.lookupResp d rr) :
    syncRR env1 ip d rr = syncRR env2 ip d rr := by
  unfold syncRR
  rw [h]

/-- A subdomain's reconciliation step issues exactly one lookup. -/
theorem lookupCalls_syncRR (env : Env) (ip d rr : String) :
    lookupCalls (syncRR env ip d rr) = [RemoteCall.lookup d rr] := by
  unfold syncRR
  cases get_domain_records (env.lookupResp d rr) with
  | none => rfl
  | some rec => split <;> first | rfl | (split <;> rfl)

/-- A subdomain whose record already holds the resolved address is a no-op:
only the lookup is issued. -/
theorem syncRR_noop (env : Env) (ip d rr : String) (rec : DnsRecord)
    (hlook : get_domain_records (env.lookupResp d rr) = some rec)
    (hval : rec.Value = ip) :
    syncRR env ip d rr = [RemoteCall.lookup d rr] := by
  unfold syncRR
  rw [hlook]
  simp [hval]

/-- C3: when the lookup for a subdomain returns an existing record whose
value differs from the resolved address, that subdomain's reconciliation
step issues exactly one update call — carrying the record's id and the
resolved address — and no create call. -/
theorem reconciler_updates_on_differing_value (env : Env) (ip domain rr : String)
    (rec : DnsRecord)
    (hlook : get_domain_records (env.lookupResp domain rr) = some rec)
    (hne : rec.Value ≠ ip) :
    syncRR env ip domain rr =
      [RemoteCall.lookup domain rr, RemoteCall.update rec.RecordId ip domain rr] ∧
    countUpdates (syncRR env ip domain rr) = 1 ∧
    countCreates (syncRR env ip domain rr) = 0 := by
  have htrace : syncRR env ip domain rr =
      [RemoteCall.lookup domain rr, RemoteCall.update rec.RecordId ip domain rr] := by
    unfold syncRR
    rw [hlook]
    simp [hne]
  rw [htrace]
  exact ⟨rfl, rfl, rfl⟩

/-- C3 witness: a stale record is updated, not created. -/
theorem reconciler_updates_on_differing_value_witness :
    syncRR envStale "2001:db8::1" "example.com" "www" =
      [RemoteCall.lookup "example.com" "www",
       RemoteCall.update "rid1" "2001:db8::1" "example.com" "www"] ∧
    countUpdates (syncRR envStale "2001:db8::1" "example.com" "www") = 1 ∧
    countCreates (syncRR envStale "2001:db8::1" "example.com" "www") = 0 :=
  reconciler_updates_on_differing_value envStale "2001:db8::1" "example.com" "www"
    ⟨"rid1", "2001:db8::2"⟩ (by decide) (by decide)

/-- C4: when the lookup for a subdomain returns absent, that subdomain's
reconciliation step issues exactly one create call with the resolved
address and no update call; conversely a create call is issued only when
the lookup returned absent. -/
theorem reconciler_creates_on_absent (env : Env) (ip domain rr : String) :
    (get_domain_records (env.lookupResp domain rr) = none →
      syncRR env ip domain rr =
        [RemoteCall.lookup domain rr, RemoteCall.create ip domain rr] ∧
      countCreates (syncRR env ip domain rr) = 1 ∧
      countUpdates (syncRR env ip domain rr) = 0) ∧
    (∀ ip2 d2 rr2, RemoteCall.create ip2 d2 rr2 ∈ syncRR env ip domain rr →
      get_domain_records (env.lookupResp domain rr) = none) := by
  constructor
  · intro hlook
    have htrace : syncRR env ip domain rr =
        [RemoteCall.lookup domain rr, RemoteCall.create ip domain rr] := by
      unfold syncRR
      rw [hlook]
    rw [htrace]
    exact ⟨rfl, rfl, rfl⟩
  · intro ip2 d2 rr2 hmem
    cases hlook : get_domain_records (env.lookupResp domain rr) with
    | none => rfl
    | some rec =>
      exfalso
      unfold syncRR at hmem
      rw [hlook] at hmem
      rcases List.mem_cons.mp hmem with hc | hc
      · simp at hc
      · have hc2 : RemoteCall.create ip2 d2 rr2 ∈
            (if (rec.Value != ip) = true
             then [RemoteCall.update rec.RecordId ip domain rr] else []) := hc
        by_cases hv : (rec.Value != ip) = true
        · rw [if_pos hv] at hc2
          simp at hc2
        · rw [if_neg hv] at hc2
          simp at hc2

/-- C4 witness: an absent record is created, not updated. -/
theorem reconciler_creates_on_absent_witness :
    syncRR envAbsent "2001:db8::1" "example.com" "www" =
      [RemoteCall.lookup "example.com" "www",
       RemoteCall.create "2001:db8::1" "example.com" "www"] ∧
    countCreates (syncRR envAbsent "2001:db8::1" "example.com" "www") = 1 ∧
    countUpdates (syncRR envAbsent "2001:db8::1" "example.com" "www") = 0 :=
  (reconciler_creates_on_absent envAbsent "2001:db8::1" "example.com" "www").1 (by decide)

/-- C6: when the provider's lookup call raises, `get_domain_records`
swallows the fault and returns `None`, so the subdomain's reconciliation
step proceeds to a create attempt (no update), and the remaining
subdomains of the list are still processed. -/
theorem lookup_failure_triggers_create (env : Env) (ip domain rr : String)
    (herr : env.lookupResp domain rr = .error ()) :
    get_domain_records (env.lookupResp domain rr) = none ∧
    syncRR env ip domain rr =
      [RemoteCall.lookup domain rr, RemoteCall.create ip domain rr] ∧
    countUpdates (syncRR env ip domain rr) = 0 ∧
    ∀ rest, syncRRs env ip domain (rr :: rest) =
      syncRR env ip domain rr ++ syncRRs env ip domain rest := by
  have habs : get_domain_records (env.lookupResp domain rr) = none := by
    rw [herr]
    rfl
  have htrace : syncRR env ip domain rr =
      [RemoteCall.lookup domain rr, RemoteCall.create ip domain rr] := by
    unfold syncRR
    rw [habs]
  refine ⟨habs, htrace, ?_, fun rest => rfl⟩
  rw [htrace]
  rfl

/-- C6 witness: a raising lookup leads to a create attempt. -/
theorem lookup_failure_triggers_create_witness :
    get_domain_records (envErr.lookupResp "example.com" "www") = none ∧
    syncRR envErr "2001:db8::1" "example.com" "www" =
      [RemoteCall.lookup "example.com" "www",
       RemoteCall.create "2001:db8::1" "example.com" "www"] ∧
    countUpdates (syncRR envErr "2001:db8::1" "example.com" "www") = 0 ∧
    ∀ rest, syncRRs envErr "2001:db8::1" "example.com" ("www" :: rest) =
      syncRR envErr "2001:db8::1" "example.com" "www" ++
        syncRRs envErr "2001:db8::1" "example.com" rest :=
  lookup_failure_triggers_create envErr "2001:db8::1" "example.com" "www" rfl

/-- Unfolding of `bindingCalls` when the resolver found nothing. -/
theorem bindingCalls_none (env : Env) (i d : String) (rrs : List String)
    (h : env.resolve i = none) : bindingCalls env i d rrs = [] := by
  unfold bindingCalls
  rw [h]

/-- Unfolding of `bindingCalls` when the resolver found a truthy address. -/
theorem bindingCalls_some (env : Env) (i d ip : String) (rrs : List String)
    (h : env.resolve i = some ip) (hip : ip ≠ "") :
    bindingCalls env i d rrs = syncRRs env ip d rrs := by
  unfold bindingCalls
  rw [h]
  exact if_neg hip

/-- Unfolding of `bindingCalls` when the resolver found the falsy empty
string. -/
theorem bindingCalls_empty (env : Env) (i d ip : String) (rrs : List String)
    (h : env.resolve i = some ip) (hip : ip = "") :
    bindingCalls env i d rrs = [] := by
  unfold bindingCalls
  rw [h]
  exact if_pos hip

/-- A subdomain list whose records all already hold the resolved address
produces no create and no update call. -/
theorem syncRRs_noop_counts (env : Env) (ip d : String) (rrs : List String)
    (h : ∀ rr ∈ rrs, ∃ rec,
      get_domain_records (env.lookupResp d rr) = some rec ∧ rec.Value = ip) :
    countCreates (syncRRs env ip d rrs) = 0 ∧
    countUpdates (syncRRs env ip d rrs) = 0 := by
  induction rrs with
  | nil => exact ⟨rfl, rfl⟩
  | cons rr rest ih =>
    obtain ⟨rec, hlook, hval⟩ := h rr (List.mem_cons_self _ _)
    obtain ⟨hc, hu⟩ := ih (fun rr2 hm => h rr2 (List.mem_cons_of_mem _ hm))
    have hnoop := syncRR_noop env ip d rr rec hlook hval
    constructor
    · simp only [syncRRs, countCreates_append, hnoop, hc]
      rfl
    · simp only [syncRRs, countUpdates_append, hnoop, hu]
      rfl

/-- C5: a cycle in which every resolved binding's records already hold the
resolved address — the provider state left behind by a previous run with
the same resolved addresses and no external mutation — issues zero create
and zero update calls. -/
theorem reconciler_idempotent (env : Env)
    (interface_domain_map : List (String × String)) (rr_list : List String)
    (h : ∀ i d, (i, d) ∈ interface_domain_map → ∀ ip, env.resolve i = some ip →
      ∀ rr ∈ rr_list, ∃ rec,
        get_domain_records (env.lookupResp d rr) = some rec ∧ rec.Value = ip) :
    countCreates (sync env interface_domain_map rr_list) = 0 ∧
    countUpdates (sync env interface_domain_map rr_list) = 0 := by
  induction interface_domain_map with
  | nil => exact ⟨rfl, rfl⟩
  | cons b rest ih =>
    obtain ⟨i, d⟩ := b
    obtain ⟨hc, hu⟩ := ih (fun i2 d2 hm => h i2 d2 (List.mem_cons_of_mem _ hm))
    have hbind : countCreates (bindingCalls env i d rr_list) = 0 ∧
        countUpdates (bindingCalls env i d rr_list) = 0 := by
      cases hres : env.resolve i with
      | none =>
        rw [bindingCalls_none env i d rr_list hres]
        exact ⟨rfl, rfl⟩
      | some ip =>
        by_cases hip : ip = ""
        · rw [bindingCalls_empty env i d ip rr_list hres hip]
          exact ⟨rfl, rfl⟩
        · rw [bindingCalls_some env i d ip rr_list hres hip]
          exact syncRRs_noop_counts env ip d rr_list
            (h i d (List.mem_cons_self _ _) ip hres)
    constructor
    · simp only [sync, countCreates_append, hbind.1, hc]
    · simp only [sync, countUpdates_append, hbind.2, hu]

/-- C5 witness: a binding whose records are already current is a pure
no-op cycle. -/
theorem reconciler_idempotent_witness :
    countCreates (sync envUpToDate [("eth0", "example.com")] ["@", "www"]) = 0 ∧
    countUpdates (sync envUpToDate [("eth0", "example.com")] ["@", "www"]) = 0 :=
  reconciler_idempotent envUpToDate [("eth0", "example.com")] ["@", "www"]
    (by
      intro i d hm ip hres rr hrr
      simp only [List.mem_singleton, Prod.mk.injEq] at hm
      obtain ⟨rfl, rfl⟩ := hm
      rw [show envUpToDate.resolve "eth0" = some "2001:db8::1" from rfl] at hres
      injection hres with hres
      exact ⟨⟨"rid1", "2001:db8::1"⟩, rfl, hres⟩)

/-- C7: a binding whose interface fails to resolve contributes no remote
call at all — deleting it from the map leaves the cycle's trace unchanged,
and the remaining bindings are processed as before. -/
theorem unresolved_binding_skipped (env : Env) (i d : String)
    (pre post : List (String × String)) (rr_list : List String)
    (h : env.resolve i = none) :
    sync env (pre ++ (i, d) :: post) rr_list = sync env (pre ++ post) rr_list := by
  induction pre with
  | nil =>
    show bindingCalls env i d rr_list ++ sync env post rr_list = sync env post rr_list
    rw [bindingCalls_none env i d rr_list h, List.nil_append]
  | cons b rest ih =>
    obtain ⟨i2, d2⟩ := b
    show bindingCalls env i2 d2 rr_list ++ sync env (rest ++ (i, d) :: post) rr_list =
      bindingCalls env i2 d2 rr_list ++ sync env (rest ++ post) rr_list
    rw [ih]

/-- C7 witness: `eth0` does not resolve; its binding is skipped and the
surrounding bindings are reconciled as if it were not configured. -/
theorem unresolved_binding_skipped_witness :
    sync envNoResolve
      [("wlan0", "a.example"), ("eth0", "b.example"), ("eth1", "c.example")]
      ["@"] =
    sync envNoResolve [("wlan0", "a.example"), ("eth1", "c.example")] ["@"] :=
  unresolved_binding_skipped envNoResolve "eth0" "b.example"
    [("wlan0", "a.example")] [("eth1", "c.example")] ["@"] rfl

/-- Every subdomain of a binding is looked up, whatever the provider's
answers and the fate of each call. -/
theorem lookupCalls_syncRRs_congr (env1 env2 : Env) (ip d : String)
    (rrs : List String) :
    lookupCalls (syncRRs env1 ip d rrs) = lookupCalls (syncRRs env2 ip d rrs) := by
  induction rrs with
  | nil => rfl
  | cons rr rest ih =>
    simp only [syncRRs, lookupCalls_append, lookupCalls_syncRR, ih]

/-- Changing the provider's behaviour at one subdomain leaves the calls for
every other subdomain of a binding unchanged. -/
theorem callsNotFor_syncRRs_congr (env1 env2 : Env) (d0 rr0 ip d : String)
    (rrs : List String)
    (hother : ∀ rr, ¬(d = d0 ∧ rr = rr0) →
      env1.lookupResp d rr = env2.lookupResp d rr) :
    callsNotFor d0 rr0 (syncRRs env1 ip d rrs) =
      callsNotFor d0 rr0 (syncRRs env2 ip d rrs) := by
  induction rrs with
  | nil => rfl
  | cons rr rest ih =>
    simp only [syncRRs, callsNotFor_append, ih]
    congr 1
    by_cases hk : d = d0 ∧ rr = rr0
    · obtain ⟨rfl, rfl⟩ := hk
      rw [callsNotFor_syncRR_self, callsNotFor_syncRR_self]
    · rw [syncRR_congr env1 env2 ip d rr (hother rr hk)]

theorem bindingCalls_congr_notFor (env1 env2 : Env) (d0 rr0 i d : String)
    (rrs : List String)
    (hres : env1.resolve i = env2.resolve i)
    (hother : ∀ rr, ¬(d = d0 ∧ rr = rr0) →
      env1.lookupResp d rr = env2.lookupResp d rr) :
    callsNotFor d0 rr0 (bindingCalls env1 i d rrs) =
      callsNotFor d0 rr0 (bindingCalls env2 i d rrs) := by
  cases hr : env2.resolve i with
  | none =>
    rw [bindingCalls_none env1 i d rrs (hres.trans hr),
      bindingCalls_none env2 i d rrs hr]
  | some ip =>
    by_cases hip : ip = ""
    · rw [bindingCalls_empty env1 i d ip rrs (hres.trans hr) hip,
        bindingCalls_empty env2 i d ip rrs hr hip]
    · rw [bindingCalls_some env1 i d ip rrs (hres.trans hr) hip,
        bindingCalls_some env2 i d ip rrs hr hip]
      exact callsNotFor_syncRRs_congr env1 env2 d0 rr0 ip d rrs hother

theorem bindingCalls_congr_lookups (env1 env2 : Env) (i d : String)
    (rrs : List String) (hres : env1.resolve i = env2.resolve i) :
    lookupCalls (bindingCalls env1 i d rrs) =
      lookupCalls (bindingCalls env2 i d rrs) := by
  cases hr : env2.resolve i with
  | none =>
    rw [bindingCalls_none env1 i d rrs (hres.trans hr),
      bindingCalls_none env2 i d rrs hr]
  | some ip =>
    by_cases hip : ip = ""
    · rw [bindingCalls_empty env1 i d ip rrs (hres.trans hr) hip,
        bindingCalls_empty env2 i d ip rrs hr hip]
    · rw [bindingCalls_some env1 i d ip rrs (hres.trans hr) hip,
        bindingCalls_some env2 i d ip rrs hr hip]
      exact lookupCalls_syncRRs_congr env1 env2 ip d rrs

/-- C8: fault isolation. `env2` is `env1` with arbitrary faults injected at
one subdomain `(d0, rr0)` — its lookup may now raise or answer differently,
and every create/update call may fail, since `createOk`/`updateOk` are
unconstrained. The cycle still issues exactly the same calls for every
other subdomain of every binding, and still looks up exactly the same
(domain, subdomain) pairs: one call's failure never prevents the
processing of subsequent subdomains or bindings. -/
theorem fault_isolation (env1 env2 : Env) (d0 rr0 : String)
    (hres : env1.resolve = env2.resolve)
    (hother : ∀ d rr, ¬(d = d0 ∧ rr = rr0) →
      env1.lookupResp d rr = env2.lookupResp d rr)
    (interface_domain_map : List (String × String)) (rr_list : List String) :
    callsNotFor d0 rr0 (sync env1 interface_domain_map rr_list) =
      callsNotFor d0 rr0 (sync env2 interface_domain_map rr_list) ∧
    lookupCalls (sync env1 interface_domain_map rr_list) =
      lookupCalls (sync env2 interface_domain_map rr_list) := by
  induction interface_domain_map with
  | nil => exact ⟨rfl, rfl⟩
  | cons b rest ih =>
    obtain ⟨i, d⟩ := b
    obtain ⟨ihn, ihl⟩ := ih
    constructor
    · show callsNotFor d0 rr0
          (bindingCalls env1 i d rr_list ++ sync env1 rest rr_list) =
        callsNotFor d0 rr0
          (bindingCalls env2 i d rr_list ++ sync env2 rest rr_list)
      rw [callsNotFor_append, callsNotFor_append, ihn,
        bindingCalls_congr_notFor env1 env2 d0 rr0 i d rr_list
          (congrFun hres i) (hother d)]
    · show lookupCalls
          (bindingCalls env1 i d rr_list ++ sync env1 rest rr_list) =
        lookupCalls
          (bindingCalls env2 i d rr_list ++ sync env2 rest rr_list)
      rw [lookupCalls_append, lookupCalls_append, ihl,
        bindingCalls_congr_lookups env1 env2 i d rr_list (congrFun hres i)]

/-- C8 witness: `envFaulty` makes the lookup for `("example.com", "www")`
raise and all create/update calls fail, yet the cycle's calls for the other
subdomain and its set of lookups match those under `envUpToDate`. -/
theorem fault_isolation_witness :
    callsNotFor "example.com" "www"
        (sync envUpToDate [("eth0", "example.com")] ["@", "www"]) =
      callsNotFor "example.com" "www"
        (sync envFaulty [("eth0", "example.com")] ["@", "www"]) ∧
    lookupCalls (sync envUpToDate [("eth0", "example.com")] ["@", "www"]) =
      lookupCalls (sync envFaulty [("eth0", "example.com")] ["@", "www"]) :=
  fault_isolation envUpToDate envFaulty "example.com" "www" rfl
    (fun _ _ h => (if_neg h).symm) [("eth0", "example.com")] ["@", "www"]

/-- C9 counterexample: one cycle raising a fault that is not a
`KeyboardInterrupt` — e.g. a `KeyError` on a malformed record dict in
`sync`, which no handler in `main` catches — stops the driver loop: it does
not continue to the next scheduled cycle, and the stop is a crash, not an
external interrupt. -/
theorem driver_crash_counterexample :
    driverRun [CycleOutcome.raised false] = some StopReason.crashed ∧
    driverRun [CycleOutcome.raised false] ≠ none ∧
    some StopReason.crashed ≠ some StopReason.interrupted := by decide

/-- C9 (amended): a completed cycle is followed by the next one; a raised
`KeyboardInterrupt` is caught and stops the loop cleanly; any other raised
fault is uncaught and terminates the process; and the loop keeps running
exactly when every cycle completes without raising. -/
theorem driver_loop_behavior :
    (∀ rest, driverRun (CycleOutcome.ok :: rest) = driverRun rest) ∧
    (∀ rest, driverRun (CycleOutcome.raised true :: rest) =
      some StopReason.interrupted) ∧
    (∀ rest, driverRun (CycleOutcome.raised false :: rest) =
      some StopReason.crashed) ∧
    (∀ outcomes, driverRun outcomes = none ↔
      ∀ c ∈ outcomes, c = CycleOutcome.ok) := by
  refine ⟨fun _ => rfl, fun _ => rfl, fun _ => rfl, ?_⟩
  intro outcomes
  induction outcomes with
  | nil =>
    constructor
    · intro _ c hc
      exact absurd hc (List.not_mem_nil c)
    · intro _
      rfl
  | cons c rest ih =>
    cases c with
    | ok =>
      constructor
      · intro h c hc
        rcases List.mem_cons.mp hc with rfl | hc
        · rfl
        · exact (ih.mp h) c hc
      · intro h
        exact ih.mpr (fun c hc => h c (List.mem_cons_of_mem _ hc))
    | raised b =>
      constructor
      · intro h
        exfalso
        cases b <;> exact Option.noConfusion h
      · intro h
        exfalso
        have hm := h (CycleOutcome.raised b) (List.mem_cons_self _ _)
        exact CycleOutcome.noConfusion hm

end AlicloudDDNS
